import Mathlib

/-!
Verification of the KCB packing-list generator's decoding/expansion core
(`packapp/utils/dat_parser_simple.py`), its grouping consumer
(`packapp/utils/packing_list_generator.py`, `packapp/utils/pdf_mapper.py`)
and the batch orchestrator (`packapp/utils/generate_packing_list.py`),
as a shallow embedding in Lean 4.

Python strings are embedded as Lean `String`; the Python library
operations used by the code (`str.strip`, `str.ljust`, `str.zfill`,
`int(...)`, `str(...)`, slicing, `os.path.basename`, the two `re.search`
patterns) are modelled below on the ASCII fragment the data uses.
-/

/-- Python `str.isspace` characters relevant here: the six ASCII whitespace
characters stripped by `str.strip()`. -/
def pyIsSpace (c : Char) : Bool :=
  c == ' ' || c == '\t' || c == '\n' || c == '\r' || c == '\x0b' || c == '\x0c'

/-- Python `str.strip()` on a character list: drop leading and trailing
whitespace. -/
def stripChars (cs : List Char) : List Char :=
  ((cs.dropWhile pyIsSpace).reverse.dropWhile pyIsSpace).reverse

/-- Python `str.strip()`. -/
def pyStrip (s : String) : String := ⟨stripChars s.data⟩

/-- Python `str.ljust(w)`: right-pad with spaces to width `w`. -/
def pyLjust (s : String) (w : Nat) : String :=
  ⟨s.data ++ List.replicate (w - s.data.length) ' '⟩

/-- Python slice `line[a:b]` on a string whose length is at least `b`. -/
def pySlice (s : String) (a b : Nat) : String := ⟨(s.data.drop a).take (b - a)⟩

/-- Python `str.zfill(w)`: left-pad with `'0'` to width `w`, after an initial
sign character when present.  Never truncates. -/
def pyZfill (s : String) (w : Nat) : String :=
  match s.data with
  | [] => ⟨List.replicate w '0'⟩
  | c :: rest =>
    if c = '+' ∨ c = '-' then
      ⟨c :: (List.replicate (w - s.data.length) '0' ++ rest)⟩
    else
      ⟨List.replicate (w - s.data.length) '0' ++ s.data⟩

/-- `os.path.basename`: the part of the path after the last `'/'`. -/
def pyBasename (s : String) : String :=
  ⟨(s.data.reverse.takeWhile (fun c => c ≠ '/')).reverse⟩

/-- Value of an ASCII digit character. -/
def digitVal (c : Char) : Nat := c.toNat - 48

/-- Accumulating decimal parser over a digit list (big-endian); fails on the
first non-digit. -/
def parseDigitsGo (acc : Nat) : List Char → Option Nat
  | [] => some acc
  | c :: cs => if c.isDigit then parseDigitsGo (acc * 10 + digitVal c) cs else none

/-- Parse a non-empty all-digit character list as a natural number. -/
def parseDigits : List Char → Option Nat
  | [] => none
  | c :: cs => parseDigitsGo 0 (c :: cs)

/-- Sign/digit dispatch of Python `int` after stripping. -/
def pyIntAux : List Char → Option Int
  | [] => none
  | c :: cs =>
    if c = '-' then (parseDigits cs).map (fun n => -(n : Int))
    else if c = '+' then (parseDigits cs).map (fun n => (n : Int))
    else (parseDigits (c :: cs)).map (fun n => (n : Int))

/-- Python `int(s)` (base 10): strip whitespace, optional single sign, then a
non-empty digit string; `none` models the `ValueError` raise. -/
def pyInt (s : String) : Option Int := pyIntAux (stripChars s.data)

/-- Decimal digit characters of `n`, most significant first, with structural
fuel so the kernel can evaluate it (`fuel > n` suffices). -/
def natCharsAux : Nat → Nat → List Char
  | 0, _ => []
  | fuel + 1, n =>
    if n < 10 then [Nat.digitChar n]
    else natCharsAux fuel (n / 10) ++ [Nat.digitChar (n % 10)]

/-- Decimal digit characters of a natural number, most significant first
(Python `str(n)` for `n ≥ 0`). -/
def natChars (n : Nat) : List Char := natCharsAux (n + 1) n

/-- Python `str(i)` for an integer. -/
def intStr (i : Int) : String :=
  if i < 0 then ⟨'-' :: natChars i.natAbs⟩ else ⟨natChars i.toNat⟩

/-- Python `range(a, b)` as a list of integers. -/
def pyRange (a b : Int) : List Int :=
  (List.range (b - a).toNat).map (fun i : Nat => a + (i : Int))

/-! ## Data model (`dat_parser_simple.py`) -/

/-- `OrderRecord` dataclass: one decoded line. -/
structure OrderRecord where
  bank_id : String
  order_id : String
  priority : String
  sort_code : String
  account_number : String
  check_digit : String
  cheque_voucher_digits : String
  credits_voucher_digits : String
  book_style : String
  number_of_books : Int
  cheque_start_serial : String
  credits_start_serial : String
  personalization : String
  branch_title : String
  branch_address : String
  signature_required : String
  beneficiary_name : String
  delivery_branch_code : String
  delivery_branch_name : String
deriving DecidableEq, Repr

/-- One entry of `DATFileParser.BOOK_STYLES` (key `"type"` is spelled
`btype`, a reserved word in Lean). -/
structure BookStyleInfo where
  btype : String
  currency : String
  leaves : Nat
deriving DecidableEq, Repr

/-- `DATFileParser.BOOK_STYLES` lookup: `BOOK_STYLES.get(style)`. -/
def BOOK_STYLES (style : String) : Option BookStyleInfo :=
  if style = "01" then some ⟨"Personal KES", "KES", 50⟩
  else if style = "02" then some ⟨"Corporate KES", "KES", 100⟩
  else if style = "25" then some ⟨"South African Rand Small", "ZAR", 50⟩
  else if style = "45" then some ⟨"South African Rand Large", "ZAR", 100⟩
  else if style = "31" then some ⟨"Sterling Pound Small", "GBP", 50⟩
  else if style = "51" then some ⟨"Sterling Pound Large", "GBP", 100⟩
  else if style = "32" then some ⟨"USA Dollar Small", "USD", 50⟩
  else if style = "52" then some ⟨"USA Dollar Large", "USD", 100⟩
  else if style = "40" then some ⟨"EURO Small", "EUR", 50⟩
  else if style = "69" then some ⟨"EURO Large", "EUR", 100⟩
  else if style = "71" then some ⟨"KES Banker's Cheques", "KES", 100⟩
  else if style = "72" then some ⟨"USD Banker's Cheques", "USD", 100⟩
  else if style = "73" then some ⟨"GBP Banker's Cheques", "GBP", 100⟩
  else if style = "74" then some ⟨"EUR Banker's Cheques", "EUR", 100⟩
  else none

/-- `DATFileParser.SERIAL_INCREMENTS` lookup. -/
def SERIAL_INCREMENTS (style : String) : Option Int :=
  if style = "01" then some 50
  else if style = "02" then some 100
  else if style = "25" then some 50
  else if style = "45" then some 100
  else if style = "31" then some 50
  else if style = "51" then some 100
  else if style = "32" then some 50
  else if style = "52" then some 100
  else if style = "40" then some 50
  else if style = "69" then some 100
  else if style = "71" then some 100
  else if style = "72" then some 100
  else if style = "73" then some 100
  else if style = "74" then some 100
  else none

/-- `self.SERIAL_INCREMENTS.get(book_style, 50)`. -/
def serialIncrement (style : String) : Int := (SERIAL_INCREMENTS style).getD 50

/-- The dictionary built by `DATFileParser._order_to_dict` for one book. -/
structure Book where
  book_style : String
  book_type_description : String
  currency : String
  leaves : Nat
  branch_code : String
  account_number : String
  serial_number : String
  account_name : String
  branch_title : String
  branch_address : String
  delivery_branch_code : String
  delivery_branch_name : String
  number_of_books : Int
deriving DecidableEq, Repr

/-- `DATFileParser._order_to_dict(order, serial)`: `book_info` is
`BOOK_STYLES.get(style, {})`, with per-key defaults
`('type','Unknown') ('currency','KES') ('leaves',50)`. -/
def order_to_dict (order : OrderRecord) (serial : String) : Book :=
  let info := BOOK_STYLES order.book_style
  { book_style := order.book_style
    book_type_description := (info.map (·.btype)).getD "Unknown"
    currency := (info.map (·.currency)).getD "KES"
    leaves := (info.map (·.leaves)).getD 50
    branch_code := order.sort_code
    account_number := order.account_number
    serial_number := serial
    account_name := pyStrip order.personalization
    branch_title := pyStrip order.branch_title
    branch_address := pyStrip order.branch_address
    delivery_branch_code := order.delivery_branch_code
    delivery_branch_name := pyStrip order.delivery_branch_name
    number_of_books := order.number_of_books }

/-! ## Record decoding (`DATFileParser._parse_order_record`) -/

/-- `line[a:b].strip()` on the already-padded character list. -/
def fieldOf (cs : List Char) (a b : Nat) : String := ⟨stripChars ((cs.drop a).take (b - a))⟩

/-- `DATFileParser._parse_order_record`: pad to 210 columns, slice the fixed
ranges; `int(num_books_str)` raising `ValueError` is caught and yields
`None`, modelled as `none`. -/
def parse_order_record (line : String) : Option OrderRecord :=
  let cs := (pyLjust line 210).data
  let num_books_str := fieldOf cs 26 30
  let num_books? : Option Int :=
    if num_books_str = "" then some 1 else pyInt num_books_str
  num_books?.map (fun num_books =>
    { bank_id := fieldOf cs 0 2
      order_id := fieldOf cs 2 3
      priority := fieldOf cs 3 4
      sort_code := fieldOf cs 4 9
      account_number := fieldOf cs 9 19
      check_digit := fieldOf cs 19 20
      cheque_voucher_digits := fieldOf cs 20 22
      credits_voucher_digits := fieldOf cs 22 24
      book_style := fieldOf cs 24 26
      number_of_books := num_books
      cheque_start_serial := fieldOf cs 30 36
      credits_start_serial := fieldOf cs 36 42
      personalization := fieldOf cs 42 78
      branch_title := fieldOf cs 78 108
      branch_address := fieldOf cs 108 138
      signature_required := fieldOf cs 138 139
      beneficiary_name := fieldOf cs 139 169
      delivery_branch_code := fieldOf cs 169 174
      delivery_branch_name := fieldOf cs 174 210 })

/-- The line loop of `DATFileParser.parse_file`: skip blank lines, skip lines
shorter than 3 characters, keep only record-type `'1'` lines that decode. -/
def parseLines (lines : List String) : List OrderRecord :=
  lines.filterMap (fun line =>
    if pyStrip line = "" then none
    else if h : 3 ≤ line.data.length then
      if line.data.get ⟨2, by omega⟩ = '1' then parse_order_record line else none
    else none)

/-! ## Order expansion (`DATFileParser._expand_orders_with_books`) -/

/-- The inner loop `for book_num in range(1, order.number_of_books)`:
`current_serial += increment`, zero-fill to 6, emit a book. -/
def expandBooksLoop (order : OrderRecord) (increment : Int) :
    Int → List Int → List Book
  | _, [] => []
  | current_serial, _ :: rest =>
    let current_serial := current_serial + increment
    order_to_dict order (pyZfill (intStr current_serial) 6) ::
      expandBooksLoop order increment current_serial rest

/-- Expansion of a single order inside `_expand_orders_with_books`: the first
book carries `cheque_start_serial` verbatim; `int(order.cheque_start_serial)`
raising `ValueError` is uncaught there, modelled as `Except.error`. -/
def expandOne (order : OrderRecord) : Except String (List Book) :=
  let increment := serialIncrement order.book_style
  let first := order_to_dict order order.cheque_start_serial
  match pyInt order.cheque_start_serial with
  | none => .error "invalid literal for int() with base 10"
  | some current_serial =>
    .ok (first :: expandBooksLoop order increment current_serial
      (pyRange 1 order.number_of_books))

/-- The books `expandOne` emits when it succeeds (empty on error). -/
def expandedBooksOf (order : OrderRecord) : List Book :=
  match expandOne order with
  | .ok bs => bs
  | .error _ => []

/-- `DATFileParser._expand_orders_with_books` over the order list: the first
uncaught `ValueError` aborts the whole call, discarding every book
accumulated so far. -/
def expandOrders : List OrderRecord → Except String (List Book)
  | [] => .ok []
  | order :: rest =>
    match expandOne order with
    | .error e => .error e
    | .ok bs => (expandOrders rest).map (fun tail => bs ++ tail)

/-! ## Filename order-number extraction
(`DATFileParser.extract_order_number_from_filename`) -/

/-- ASCII lower-casing, for `re.IGNORECASE`. -/
def lowerChar (c : Char) : Char :=
  if 'A' ≤ c ∧ c ≤ 'Z' then Char.ofNat (c.toNat + 32) else c

/-- Match `KCB-(\d+)` (case-insensitive) anchored at the start of the list;
returns the greedy digit group. -/
def kcbAt : List Char → Option (List Char)
  | k :: c :: b :: d :: rest =>
    if lowerChar k = 'k' ∧ lowerChar c = 'c' ∧ lowerChar b = 'b' ∧ d = '-' then
      let ds := rest.takeWhile Char.isDigit
      if ds.isEmpty then none else some ds
    else none
  | _ => none

/-- `re.search(r'KCB-(\d+)', filename, re.IGNORECASE)`: leftmost match. -/
def searchKCB : List Char → Option (List Char)
  | [] => none
  | c :: cs =>
    match kcbAt (c :: cs) with
    | some ds => some ds
    | none => searchKCB cs

/-- Match `(\d{3,6})` anchored at the start of the list: greedy run of
digits, at least 3, at most 6 taken. -/
def digits3to6At (cs : List Char) : Option (List Char) :=
  let ds := cs.takeWhile Char.isDigit
  if 3 ≤ ds.length then some (ds.take 6) else none

/-- `re.search(r'(\d{3,6})', filename)`: leftmost match. -/
def search3to6 : List Char → Option (List Char)
  | [] => none
  | c :: cs =>
    match digits3to6At (c :: cs) with
    | some ds => some ds
    | none => search3to6 cs

/-- `DATFileParser.extract_order_number_from_filename`.  The argument
`fallback` stands for `datetime.now().strftime("%m%d%H")`, the time-derived
string used when neither pattern matches; the wall clock is otherwise outside
the embedding. -/
def extract_order_number_from_filename (fallback : String) (file_path : String) : String :=
  let filename := pyBasename file_path
  match searchKCB filename.data with
  | some ds => pyZfill ⟨ds⟩ 6
  | none =>
    match search3to6 filename.data with
    | some ds => pyZfill ⟨ds⟩ 6
    | none => pyZfill fallback 6

/-! ## Parser object state (`DATFileParser`, `parse_file`,
`get_file_metadata`) -/

/-- The mutable attributes set by `DATFileParser.__init__`. -/
structure ParserState where
  orders : List OrderRecord
  filename : String
  extracted_order_number : String
deriving DecidableEq, Repr

/-- `DATFileParser()`. -/
def initParser : ParserState := ⟨[], "", ""⟩

/-- The dictionary returned by `DATFileParser.parse_file`. -/
structure ParseResult where
  orders : List OrderRecord
  expanded_orders : List Book
  extracted_order_number : String
deriving DecidableEq, Repr

/-- `DATFileParser.parse_file(file_path)` given the file's lines (already
split, newline-stripped).  New orders are appended to `self.orders`, which is
never cleared; the returned dictionary is built from the accumulated
`self.orders`.  An uncaught serial `ValueError` from
`_expand_orders_with_books` propagates after the state was already
mutated. -/
def parse_file (fallback : String) (st : ParserState) (file_path : String)
    (lines : List String) : ParserState × Except String ParseResult :=
  let eon := extract_order_number_from_filename fallback file_path
  let st := { st with filename := pyBasename file_path, extracted_order_number := eon }
  let st := { st with orders := st.orders ++ parseLines lines }
  match expandOrders st.orders with
  | .error e => (st, .error e)
  | .ok expanded => (st, .ok ⟨st.orders, expanded, eon⟩)

/-- The dictionary returned by `DATFileParser.get_file_metadata`; `today`
stands for `datetime.now().strftime("%Y-%m-%d")`. -/
structure FileMetadata where
  bank_id : String
  run_number : String
  supplier_code : String
  file_date : String
  total_orders : Nat
  total_books : Int
  filename : String
deriving DecidableEq, Repr

/-- `DATFileParser.get_file_metadata`. -/
def get_file_metadata (st : ParserState) (today : String) : FileMetadata :=
  { bank_id := "01"
    run_number := st.extracted_order_number
    supplier_code := "TD"
    file_date := today
    total_orders := st.orders.length
    total_books := (st.orders.map (·.number_of_books)).sum
    filename := st.filename }

/-! ## Grouping and packing-list generation
(`packing_list_generator.py`, table ordering from `pdf_mapper.py`) -/

/-- Append a book to the group of key `k`, preserving first-encounter key
order, as `defaultdict(list)` does. -/
def addToGroup : List (String × List Book) → String → Book → List (String × List Book)
  | [], k, b => [(k, [b])]
  | (k', bs) :: rest, k, b =>
    if k' = k then (k', bs ++ [b]) :: rest else (k', bs) :: addToGroup rest k b

/-- One iteration of the loop in
`PackingListGenerator.group_books_by_delivery_branch`. -/
def groupStep (grouped : List (String × List Book)) (order : Book) :
    List (String × List Book) :=
  let delivery_code := pyStrip order.delivery_branch_code
  if delivery_code = "" then grouped else addToGroup grouped delivery_code order

/-- `PackingListGenerator.group_books_by_delivery_branch`: group by stripped
`delivery_branch_code`, silently dropping books whose stripped code is
empty. -/
def group_books_by_delivery_branch (expanded_orders : List Book) :
    List (String × List Book) :=
  expanded_orders.foldl groupStep []

/-- Association-list lookup on a grouping (`grouped[k]`). -/
def lookupGroup (k : String) : List (String × List Book) → Option (List Book)
  | [] => none
  | (k', bs) :: rest => if k' = k then some bs else lookupGroup k rest

/-- One element of the `book_entries` list built by
`PackingListGenerator.generate_packing_lists`. -/
structure BookEntry where
  book_style : String
  account_name : String
  account_number : String
  start_serial : String
  branch_code : String
  currency : String
  leaves : Nat
deriving DecidableEq, Repr

/-- The per-book dictionary built inside `generate_packing_lists`
(`branch_code` is the stripped `delivery_branch_code`). -/
def mkBookEntry (book : Book) : BookEntry :=
  { book_style := book.book_style
    account_name := pyStrip book.account_name
    account_number := pyStrip book.account_number
    start_serial := pyStrip book.serial_number
    branch_code := pyStrip book.delivery_branch_code
    currency := book.currency
    leaves := book.leaves }

/-- One packing-list page (one per delivery branch). -/
structure PackingList where
  bank_name : String
  order_number : String
  order_date : String
  delivery_branch_code : String
  delivery_branch_name : String
  total_books : Nat
  books : List BookEntry
deriving DecidableEq, Repr

/-- `PackingListGenerator.generate_packing_lists`: one page per branch, in
`sorted(grouped_books.keys())` order; the branch name comes from the first
book of the group. -/
def generate_packing_lists (expanded_orders : List Book)
    (order_number order_date : String) : List PackingList :=
  let grouped_books := group_books_by_delivery_branch expanded_orders
  let sortedKeys := (grouped_books.map Prod.fst).insertionSort (· ≤ ·)
  sortedKeys.map (fun branch_code =>
    let books := (lookupGroup branch_code grouped_books).getD []
    { bank_name := "KCB Bank Ltd"
      order_number := order_number
      order_date := order_date
      delivery_branch_code := branch_code
      delivery_branch_name :=
        pyStrip ((books.head?.map (·.delivery_branch_name)).getD "UNKNOWN BRANCH")
      total_books := books.length
      books := books.map mkBookEntry })

/-- The row order of `PackingListPDFMapper._create_books_table`:
`sorted(books, key=lambda x: x['book_style'], reverse=True)` — a stable sort,
descending on `book_style`. -/
def create_books_table_rows (books : List BookEntry) : List BookEntry :=
  books.insertionSort (fun a b => b.book_style ≤ a.book_style)

/-! ## Lemmas: decimal strings and Python `int` -/

theorem digitVal_digitChar {n : Nat} (h : n < 10) : digitVal (Nat.digitChar n) = n := by
  interval_cases n <;> rfl

theorem isDigit_digitChar {n : Nat} (h : n < 10) : (Nat.digitChar n).isDigit = true := by
  interval_cases n <;> rfl

theorem parseDigitsGo_append (acc : Nat) (l₁ l₂ : List Char) :
    parseDigitsGo acc (l₁ ++ l₂)
      = (parseDigitsGo acc l₁).bind (fun a => parseDigitsGo a l₂) := by
  induction l₁ generalizing acc with
  | nil => rfl
  | cons c cs ih =>
    by_cases hc : c.isDigit
    · simp only [List.cons_append, parseDigitsGo, hc, if_true, List.append_eq, ih]
    · simp [parseDigitsGo, hc]

theorem natCharsAux_ne_nil {fuel n : Nat} (h : 0 < fuel) : natCharsAux fuel n ≠ [] := by
  cases fuel with
  | zero => omega
  | succ f =>
    by_cases hn : n < 10 <;> simp [natCharsAux, hn]

theorem isDigit_of_mem_natCharsAux {fuel n : Nat} :
    ∀ c ∈ natCharsAux fuel n, c.isDigit = true := by
  induction fuel generalizing n with
  | zero => intro c hc; simp [natCharsAux] at hc
  | succ f ih =>
    intro c hc
    by_cases hn : n < 10
    · simp only [natCharsAux, hn, if_true, List.mem_singleton] at hc
      exact hc ▸ isDigit_digitChar hn
    · simp only [natCharsAux, hn, if_false, List.mem_append, List.mem_singleton] at hc
      rcases hc with hc | hc
      · exact ih c hc
      · exact hc ▸ isDigit_digitChar (Nat.mod_lt _ (by omega))

theorem parseDigitsGo_natCharsAux {fuel n : Nat} (h : n < fuel) (acc : Nat) :
    parseDigitsGo acc (natCharsAux fuel n)
      = some (acc * 10 ^ (natCharsAux fuel n).length + n) := by
  induction fuel generalizing n acc with
  | zero => omega
  | succ f ih =>
    by_cases hn : n < 10
    · simp only [natCharsAux, hn, if_true, parseDigitsGo, isDigit_digitChar hn, if_true,
        digitVal_digitChar hn, List.length_singleton, pow_one]
    · have hdiv : n / 10 < f := by
        have h1 : n / 10 < n := Nat.div_lt_self (by omega) (by omega)
        omega
      simp only [natCharsAux, hn, if_false, parseDigitsGo_append, ih hdiv, Option.bind,
        List.length_append, List.length_singleton]
      have hmod : n % 10 < 10 := Nat.mod_lt _ (by omega)
      simp only [parseDigitsGo, isDigit_digitChar hmod, if_true, digitVal_digitChar hmod]
      congr 1
      rw [pow_succ, ← mul_assoc]
      omega

theorem parseDigits_eq_go {l : List Char} (h : l ≠ []) :
    parseDigits l = parseDigitsGo 0 l := by
  cases l with
  | nil => exact absurd rfl h
  | cons c cs => rfl

theorem parseDigits_natChars (n : Nat) : parseDigits (natChars n) = some n := by
  unfold natChars
  rw [parseDigits_eq_go (natCharsAux_ne_nil (by omega)),
    parseDigitsGo_natCharsAux (by omega)]
  simp

theorem parseDigitsGo_zeros (k : Nat) (l : List Char) :
    parseDigitsGo 0 (List.replicate k '0' ++ l) = parseDigitsGo 0 l := by
  induction k with
  | zero => rfl
  | succ m ih =>
    simpa only [List.replicate_succ, List.cons_append, parseDigitsGo,
      show ('0').isDigit = true from rfl, if_true] using ih

theorem pyIsSpace_eq_false_of_isDigit {c : Char} (h : c.isDigit = true) :
    pyIsSpace c = false := by
  revert h
  unfold pyIsSpace
  by_cases h1 : c = ' '
  · subst h1; decide
  by_cases h2 : c = '\t'
  · subst h2; decide
  by_cases h3 : c = '\n'
  · subst h3; decide
  by_cases h4 : c = '\r'
  · subst h4; decide
  by_cases h5 : c = '\x0b'
  · subst h5; decide
  by_cases h6 : c = '\x0c'
  · subst h6; decide
  intro _
  simp [beq_iff_eq, h1, h2, h3, h4, h5, h6]

theorem dropWhile_eq_self_of_forall {p : Char → Bool} {l : List Char}
    (h : ∀ c ∈ l, p c = false) : l.dropWhile p = l := by
  cases l with
  | nil => rfl
  | cons c cs => simp [List.dropWhile, h c (List.mem_cons_self c cs)]

theorem stripChars_eq_self {l : List Char} (h : ∀ c ∈ l, pyIsSpace c = false) :
    stripChars l = l := by
  unfold stripChars
  rw [dropWhile_eq_self_of_forall h,
    dropWhile_eq_self_of_forall (fun c hc => h c (List.mem_reverse.mp hc)),
    List.reverse_reverse]

theorem pyIntAux_of_digits {l : List Char} (h : l ≠ [])
    (hd : ∀ c ∈ l, c.isDigit = true) :
    pyIntAux l = (parseDigitsGo 0 l).map (fun n => (n : Int)) := by
  cases l with
  | nil => exact absurd rfl h
  | cons c cs =>
    have hc : c.isDigit = true := hd c (List.mem_cons_self c cs)
    have hminus : c ≠ '-' := by rintro rfl; exact absurd hc (by decide)
    have hplus : c ≠ '+' := by rintro rfl; exact absurd hc (by decide)
    simp only [pyIntAux, hminus, hplus, if_false]
    rw [parseDigits_eq_go (by simp)]

theorem parseDigitsGo_natChars (n : Nat) : parseDigitsGo 0 (natChars n) = some n := by
  rw [← parseDigits_eq_go (by unfold natChars; exact natCharsAux_ne_nil (by omega))]
  exact parseDigits_natChars n

theorem natChars_ne_nil (n : Nat) : natChars n ≠ [] := by
  unfold natChars; exact natCharsAux_ne_nil (by omega)

theorem isDigit_of_mem_natChars {n : Nat} : ∀ c ∈ natChars n, c.isDigit = true := by
  unfold natChars; exact isDigit_of_mem_natCharsAux

theorem pyZfill_length (s : String) (w : Nat) :
    (pyZfill s w).data.length = max s.data.length w := by
  obtain ⟨l⟩ := s
  cases l with
  | nil => simp [pyZfill]
  | cons c rest =>
    by_cases hsign : c = '+' ∨ c = '-' <;>
      simp [pyZfill, hsign, List.length_replicate] <;> omega

theorem pyZfill_eq_self {s : String} {w : Nat} (h : w ≤ s.data.length) :
    pyZfill s w = s := by
  obtain ⟨l⟩ := s
  cases l with
  | nil =>
    simp at h
    simp [pyZfill, h]
  | cons c rest =>
    simp only [List.length_cons] at h
    by_cases hsign : c = '+' ∨ c = '-' <;>
      simp [pyZfill, hsign, show w - (rest.length + 1) = 0 by omega]

theorem pyZfill_mk_cons (c : Char) (l : List Char) (w : Nat) :
    pyZfill ⟨c :: l⟩ w =
      if c = '+' ∨ c = '-' then
        ⟨c :: (List.replicate (w - (l.length + 1)) '0' ++ l)⟩
      else
        ⟨List.replicate (w - (l.length + 1)) '0' ++ c :: l⟩ := by
  simp [pyZfill]

theorem intStr_of_neg {i : Int} (hi : i < 0) : intStr i = ⟨'-' :: natChars i.natAbs⟩ := by
  simp [intStr, hi]

theorem intStr_of_nonneg {i : Int} (hi : 0 ≤ i) : intStr i = ⟨natChars i.toNat⟩ := by
  simp [intStr, not_lt.mpr hi]

theorem pyInt_mk (l : List Char) : pyInt ⟨l⟩ = pyIntAux (stripChars l) := rfl

theorem pyInt_pyZfill_intStr (i : Int) : pyInt (pyZfill (intStr i) 6) = some i := by
  by_cases hi : i < 0
  · rw [intStr_of_neg hi, pyZfill_mk_cons, if_pos (Or.inr rfl), pyInt_mk]
    set rest := List.replicate (6 - ((natChars i.natAbs).length + 1)) '0' ++
      natChars i.natAbs with hrest
    have hrestd : ∀ x ∈ rest, x.isDigit = true := by
      intro x hx
      rcases List.mem_append.mp hx with hx | hx
      · rw [List.eq_of_mem_replicate hx]; decide
      · exact isDigit_of_mem_natChars x hx
    rw [stripChars_eq_self (by
      intro x hx
      rcases List.mem_cons.mp hx with hx | hx
      · rw [hx]; decide
      · exact pyIsSpace_eq_false_of_isDigit (hrestd x hx))]
    simp only [pyIntAux, if_true]
    rw [hrest, parseDigits_eq_go (by simp [natChars_ne_nil]), parseDigitsGo_zeros,
      parseDigitsGo_natChars]
    show some (-(i.natAbs : Int)) = some i
    have hni : -(i.natAbs : Int) = i := by omega
    rw [hni]
  · push_neg at hi
    rw [intStr_of_nonneg hi]
    obtain ⟨c, cs, hcc⟩ : ∃ c cs, natChars i.toNat = c :: cs := by
      cases hnc : natChars i.toNat with
      | nil => exact absurd hnc (natChars_ne_nil _)
      | cons c cs => exact ⟨c, cs, rfl⟩
    have hcdig : c.isDigit = true := by
      have := @isDigit_of_mem_natChars i.toNat c
      rw [hcc] at this
      exact this (List.mem_cons_self c cs)
    have hsign : ¬(c = '+' ∨ c = '-') := by
      rintro (rfl | rfl) <;> exact absurd hcdig (by decide)
    rw [hcc, pyZfill_mk_cons, if_neg hsign, pyInt_mk, ← hcc]
    have hall : ∀ x ∈ List.replicate (6 - (cs.length + 1)) '0' ++ natChars i.toNat,
        x.isDigit = true := by
      intro x hx
      rcases List.mem_append.mp hx with hx | hx
      · rw [List.eq_of_mem_replicate hx]; decide
      · exact isDigit_of_mem_natChars x hx
    rw [stripChars_eq_self (fun x hx => pyIsSpace_eq_false_of_isDigit (hall x hx)),
      pyIntAux_of_digits (by simp [natChars_ne_nil]) hall,
      parseDigitsGo_zeros, parseDigitsGo_natChars]
    show some ((i.toNat : Int)) = some i
    have hni : ((i.toNat : Int)) = i := by omega
    rw [hni]

/-! ## Lemmas: order expansion -/

theorem serial_number_order_to_dict (o : OrderRecord) (s : String) :
    (order_to_dict o s).serial_number = s := rfl

theorem pyRange_length (a b : Int) : (pyRange a b).length = (b - a).toNat := by
  simp [pyRange]

theorem expandBooksLoop_eq_map (o : OrderRecord) (inc : Int) (ks : List Int) :
    ∀ cur : Int, expandBooksLoop o inc cur ks =
      (List.range ks.length).map
        (fun j : Nat => order_to_dict o (pyZfill (intStr (cur + ((j : Int) + 1) * inc)) 6)) := by
  have key : ∀ A B : Int, A = B →
      order_to_dict o (pyZfill (intStr A) 6) = order_to_dict o (pyZfill (intStr B) 6) :=
    fun A B h => by rw [h]
  induction ks with
  | nil => intro cur; rfl
  | cons k ks ih =>
    intro cur
    simp only [expandBooksLoop, List.length_cons, List.range_succ_eq_map, List.map_cons,
      List.map_map, ih (cur + inc)]
    congr 1
    · exact key _ _ (by push_cast; ring)
    · refine List.map_congr_left (fun j hj => ?_)
      simp only [Function.comp]
      exact key _ _ (by push_cast; ring)

theorem expandOne_ok {o : OrderRecord} {start : Int}
    (h : pyInt o.cheque_start_serial = some start) :
    expandOne o = .ok (order_to_dict o o.cheque_start_serial ::
      (List.range (o.number_of_books - 1).toNat).map
        (fun j : Nat => order_to_dict o
          (pyZfill (intStr (start + ((j : Int) + 1) * serialIncrement o.book_style)) 6))) := by
  unfold expandOne
  rw [h]
  dsimp only
  rw [expandBooksLoop_eq_map]
  rw [show (pyRange 1 o.number_of_books).length = (o.number_of_books - 1).toNat from
    pyRange_length 1 o.number_of_books]

theorem expandOne_eq_ok_of_isSome {o : OrderRecord}
    (h : (pyInt o.cheque_start_serial).isSome = true) :
    expandOne o = .ok (expandedBooksOf o) := by
  cases hpy : pyInt o.cheque_start_serial with
  | none => rw [hpy] at h; cases h
  | some s => simp [expandedBooksOf, expandOne, hpy]

theorem expandedBooksOf_length {o : OrderRecord}
    (h : (pyInt o.cheque_start_serial).isSome = true) :
    ((expandedBooksOf o).length : Int) = max o.number_of_books 1 := by
  obtain ⟨s, hs⟩ := Option.isSome_iff_exists.mp h
  have := expandOne_ok hs
  rw [expandOne_eq_ok_of_isSome h, Except.ok.injEq] at this
  rw [this]
  simp only [List.length_cons, List.length_map, List.length_range]
  omega

theorem expandOne_ok_length {o : OrderRecord} {bs : List Book}
    (h : expandOne o = .ok bs) : ((bs.length : Int)) = max o.number_of_books 1 := by
  cases hpy : pyInt o.cheque_start_serial with
  | none => rw [expandOne, hpy] at h; cases h
  | some s =>
    have hsome : (pyInt o.cheque_start_serial).isSome = true := by rw [hpy]; rfl
    rw [expandOne_eq_ok_of_isSome hsome, Except.ok.injEq] at h
    rw [← h]
    exact expandedBooksOf_length hsome

theorem expandOrders_ok_of_forall {orders : List OrderRecord}
    (h : ∀ o ∈ orders, (pyInt o.cheque_start_serial).isSome = true) :
    expandOrders orders = .ok ((orders.map expandedBooksOf).flatten) := by
  induction orders with
  | nil => rfl
  | cons o rest ih =>
    rw [expandOrders, expandOne_eq_ok_of_isSome (h o (List.mem_cons_self o rest)),
      ih (fun o' ho' => h o' (List.mem_cons_of_mem o ho'))]
    simp [Except.map]

theorem expandOrders_error_of_mem {orders : List OrderRecord} {o : OrderRecord}
    (ho : o ∈ orders) (h : pyInt o.cheque_start_serial = none) :
    ∃ e, expandOrders orders = .error e := by
  induction orders with
  | nil => cases ho
  | cons o' rest ih =>
    rcases List.mem_cons.mp ho with rfl | hmem
    · exact ⟨_, by rw [expandOrders, expandOne, h]⟩
    · cases he : expandOne o' with
      | error e => exact ⟨e, by rw [expandOrders, he]⟩
      | ok bs =>
        obtain ⟨e, he2⟩ := ih hmem
        exact ⟨e, by rw [expandOrders, he, he2]; rfl⟩

theorem expandOrders_ok_length {orders : List OrderRecord} {bs : List Book}
    (h : expandOrders orders = .ok bs) :
    ((bs.length : Int)) = (orders.map (fun o => max o.number_of_books 1)).sum := by
  induction orders generalizing bs with
  | nil =>
    rw [expandOrders, Except.ok.injEq] at h
    subst h
    simp
  | cons o rest ih =>
    rw [expandOrders] at h
    cases he : expandOne o with
    | error e => rw [he] at h; cases h
    | ok b0 =>
      rw [he] at h
      cases hr : expandOrders rest with
      | error e => rw [hr] at h; cases h
      | ok brest =>
        rw [hr] at h
        simp only [Except.map, Except.ok.injEq] at h
        subst h
        simp only [List.length_append, List.map_cons, List.sum_cons, Nat.cast_add]
        rw [expandOne_ok_length he, ih hr]

/-! ## Concrete records used by witnesses and counterexamples -/

/-- A well-formed decoded order: style `01`, three books, serial `000001`. -/
def sampleOrder : OrderRecord :=
  { bank_id := "01", order_id := "1", priority := "", sort_code := "01100"
    account_number := "1234567890", check_digit := "", cheque_voucher_digits := ""
    credits_voucher_digits := "", book_style := "01", number_of_books := 3
    cheque_start_serial := "000001", credits_start_serial := ""
    personalization := "JOHN DOE", branch_title := "KCB NAIROBI"
    branch_address := "PO BOX 1", signature_required := ""
    beneficiary_name := "", delivery_branch_code := "01320"
    delivery_branch_name := "KCB LAVINGTON" }

/-- An order whose `cheque_start_serial` is not parseable as an integer. -/
def badSerialOrder : OrderRecord := { sampleOrder with cheque_start_serial := "ABC" }

/-- An order declaring zero books (possible when columns 26–30 hold `0000`). -/
def zeroBooksOrder : OrderRecord :=
  { sampleOrder with
      number_of_books := 0
      delivery_branch_code := "01500"
      delivery_branch_name := "KCB RIVER ROAD" }

/-- An order whose serial field holds the short string `"1"`. -/
def shortSerialOrder : OrderRecord :=
  { sampleOrder with cheque_start_serial := "1", number_of_books := 1 }

/-! ## Claims C1, C3, C4, C5, C7 -/

/-- Claim C1, counterexample: with a first order whose `chequeStartSerial`
is `"ABC"` followed by a perfectly good order, `_expand_orders_with_books`
raises (returns an error) instead of skipping the bad order and emitting the
good order's books — the whole batch is aborted. -/
theorem c1_counterexample :
    expandOrders [badSerialOrder, sampleOrder]
      = .error "invalid literal for int() with base 10" := rfl

/-- Claim C1, amended: a `chequeStartSerial` that is not parseable as an
integer is NOT caught inside expansion; the `ValueError` propagates, so the
whole batch's expansion returns an error (no expanded books for any order of
the file). -/
theorem c1_serial_error_aborts_whole_batch (orders : List OrderRecord)
    (o : OrderRecord) (ho : o ∈ orders) (h : pyInt o.cheque_start_serial = none) :
    ∃ e, expandOrders orders = .error e :=
  expandOrders_error_of_mem ho h

theorem c1_serial_error_aborts_whole_batch_witness :
    badSerialOrder ∈ [badSerialOrder, sampleOrder] ∧
      pyInt badSerialOrder.cheque_start_serial = none ∧
      ∃ e, expandOrders [badSerialOrder, sampleOrder] = .error e :=
  ⟨List.mem_cons_self _ _, by decide,
    c1_serial_error_aborts_whole_batch [badSerialOrder, sampleOrder] badSerialOrder
      (List.mem_cons_self _ _) (by decide)⟩

/-- Claim C3, counterexample: an order with `numberOfBooks = 0` and a
parseable serial still expands to one book, so `totalBooks` (= 0) differs
from the expanded length (= 1). -/
theorem c3_counterexample :
    (pyInt zeroBooksOrder.cheque_start_serial).isSome = true ∧
      (expandOrders [zeroBooksOrder]).map List.length = .ok 1 ∧
      (get_file_metadata ⟨[zeroBooksOrder], "f.dat", "000618"⟩ "2026-01-01").total_books
        = 0 ∧
      (0 : Int) ≠ (1 : Int) :=
  ⟨by decide, rfl, rfl, by decide⟩

/-- Claim C3, amended: when no order triggers a serial-parse error AND every
order's `numberOfBooks` is at least 1, the metadata `totalBooks` (the sum of
`numberOfBooks` over the pre-expansion order list) equals the length of the
expanded book list. -/
theorem c3_total_books_eq_expanded_length (orders : List OrderRecord)
    (bs : List Book) (fn eon today : String)
    (h1 : ∀ o ∈ orders, 1 ≤ o.number_of_books)
    (h2 : expandOrders orders = .ok bs) :
    (get_file_metadata ⟨orders, fn, eon⟩ today).total_books = (bs.length : Int) := by
  rw [expandOrders_ok_length h2]
  unfold get_file_metadata
  exact congrArg List.sum
    (List.map_congr_left (fun o ho => (max_eq_left (h1 o ho)).symm))

theorem c3_total_books_eq_expanded_length_witness :
    (∀ o ∈ [sampleOrder], 1 ≤ o.number_of_books) ∧
      expandOrders [sampleOrder] = .ok (expandedBooksOf sampleOrder) ∧
      (get_file_metadata ⟨[sampleOrder], "f.dat", "000618"⟩ "2026-01-01").total_books
        = ((expandedBooksOf sampleOrder).length : Int) :=
  ⟨by decide, rfl,
    c3_total_books_eq_expanded_length [sampleOrder] (expandedBooksOf sampleOrder)
      "f.dat" "000618" "2026-01-01" (by decide) rfl⟩

/-- Claim C4: whenever every order's serial parses, expansion succeeds and
returns each order's books concatenated in input order, and each single
order's expansion yields exactly `max(numberOfBooks, 1)` books. -/
theorem c4_expansion_count_and_order (orders : List OrderRecord)
    (h : ∀ o ∈ orders, (pyInt o.cheque_start_serial).isSome = true) :
    expandOrders orders = .ok ((orders.map expandedBooksOf).flatten) ∧
      ∀ o ∈ orders, ((expandedBooksOf o).length : Int) = max o.number_of_books 1 :=
  ⟨expandOrders_ok_of_forall h, fun o ho => expandedBooksOf_length (h o ho)⟩

theorem c4_expansion_count_and_order_witness :
    (∀ o ∈ [sampleOrder, zeroBooksOrder], (pyInt o.cheque_start_serial).isSome = true) ∧
      (expandOrders [sampleOrder, zeroBooksOrder]
          = .ok (([sampleOrder, zeroBooksOrder].map expandedBooksOf).flatten) ∧
        ∀ o ∈ [sampleOrder, zeroBooksOrder],
          ((expandedBooksOf o).length : Int) = max o.number_of_books 1) :=
  ⟨by decide, c4_expansion_count_and_order [sampleOrder, zeroBooksOrder] (by decide)⟩

/-- Claim C5: for an order with at least one book and a parseable serial, the
expanded books' serial numbers, read back as integers, form the arithmetic
sequence `start + i * SerialIncrement[bookStyle]` (increment defaulting to 50
for unknown styles); book #1 carries `chequeStartSerial` verbatim, and every
book agrees with book #1 on all fields except `serial_number`. -/
theorem c5_serials_arithmetic (o : OrderRecord) (start : Int)
    (h1 : 1 ≤ o.number_of_books)
    (h2 : pyInt o.cheque_start_serial = some start) :
    ∃ bs, expandOne o = .ok bs ∧
      (∀ i : Fin bs.length,
        pyInt (bs.get i).serial_number
          = some (start + ((i : Nat) : Int) * serialIncrement o.book_style)) ∧
      bs.head? = some (order_to_dict o o.cheque_start_serial) ∧
      (∀ b ∈ bs,
        b = { order_to_dict o o.cheque_start_serial with serial_number := b.serial_number }) ∧
      (SERIAL_INCREMENTS o.book_style = none → serialIncrement o.book_style = 50) := by
  refine ⟨_, expandOne_ok h2, ?_, rfl, ?_, ?_⟩
  · rintro ⟨i, hi⟩
    match i with
    | 0 => simpa using h2
    | Nat.succ j =>
      simp only [List.length_cons, List.length_map, List.length_range,
        Nat.succ_lt_succ_iff] at hi
      simp only [List.get_cons_succ, List.get_map, List.get_range,
        serial_number_order_to_dict, pyInt_pyZfill_intStr]
      push_cast
      ring_nf
  · intro b hb
    rcases List.mem_cons.mp hb with rfl | hb
    · rfl
    · obtain ⟨j, _, rfl⟩ := List.mem_map.mp hb
      rfl
  · intro h; simp [serialIncrement, h]

theorem c5_serials_arithmetic_witness :
    1 ≤ sampleOrder.number_of_books ∧
      pyInt sampleOrder.cheque_start_serial = some 1 ∧
      (∃ bs, expandOne sampleOrder = .ok bs ∧
        (∀ i : Fin bs.length,
          pyInt (bs.get i).serial_number
            = some (1 + ((i : Nat) : Int) * serialIncrement sampleOrder.book_style)) ∧
        bs.head? = some (order_to_dict sampleOrder sampleOrder.cheque_start_serial) ∧
        (∀ b ∈ bs,
          b = { order_to_dict sampleOrder sampleOrder.cheque_start_serial with
                  serial_number := b.serial_number }) ∧
        (SERIAL_INCREMENTS sampleOrder.book_style = none
          → serialIncrement sampleOrder.book_style = 50)) :=
  ⟨by decide, by decide, c5_serials_arithmetic sampleOrder 1 (by decide) (by decide)⟩

/-- Claim C7, counterexample: an order whose `chequeStartSerial` is the
one-character string `"1"` yields a book whose `serialNumber` is `"1"` —
1 character, not 6. -/
theorem c7_counterexample :
    (expandOrders [shortSerialOrder]).map
        (fun bs => bs.map (fun b => b.serial_number.data.length)) = .ok [1] ∧
      (1 : Nat) ≠ 6 :=
  ⟨rfl, by decide⟩

/-- Claim C7, amended: the first book of each order carries the order's
`chequeStartSerial` verbatim (whatever its length); every subsequent book's
`serialNumber` is zero-filled to at least 6 characters. -/
theorem c7_serial_padding (o : OrderRecord) (bs : List Book)
    (h : expandOne o = .ok bs) :
    bs.head?.map (·.serial_number) = some o.cheque_start_serial ∧
      ∀ b ∈ bs.tail, 6 ≤ b.serial_number.data.length := by
  cases hpy : pyInt o.cheque_start_serial with
  | none => rw [expandOne, hpy] at h; cases h
  | some s =>
    rw [expandOne_ok hpy, Except.ok.injEq] at h
    subst h
    refine ⟨rfl, ?_⟩
    intro b hb
    simp only [List.tail_cons] at hb
    obtain ⟨j, _, rfl⟩ := List.mem_map.mp hb
    rw [serial_number_order_to_dict, pyZfill_length]
    omega

theorem c7_serial_padding_witness :
    expandOne sampleOrder = .ok (expandedBooksOf sampleOrder) ∧
      ((expandedBooksOf sampleOrder).head?.map (·.serial_number)
          = some sampleOrder.cheque_start_serial ∧
        ∀ b ∈ (expandedBooksOf sampleOrder).tail, 6 ≤ b.serial_number.data.length) :=
  ⟨rfl, c7_serial_padding sampleOrder (expandedBooksOf sampleOrder) rfl⟩

/-! ## Claims C6, C9, C2 -/

theorem extract_of_searchKCB {fallback file_path : String} {ds : List Char}
    (h : searchKCB (pyBasename file_path).data = some ds) :
    extract_order_number_from_filename fallback file_path = pyZfill ⟨ds⟩ 6 := by
  unfold extract_order_number_from_filename
  dsimp only
  rw [h]

theorem extract_of_search3to6 {fallback file_path : String} {ds : List Char}
    (h1 : searchKCB (pyBasename file_path).data = none)
    (h2 : search3to6 (pyBasename file_path).data = some ds) :
    extract_order_number_from_filename fallback file_path = pyZfill ⟨ds⟩ 6 := by
  unfold extract_order_number_from_filename
  dsimp only
  rw [h1, h2]

theorem extract_of_no_match {fallback file_path : String}
    (h1 : searchKCB (pyBasename file_path).data = none)
    (h2 : search3to6 (pyBasename file_path).data = none) :
    extract_order_number_from_filename fallback file_path = pyZfill fallback 6 := by
  unfold extract_order_number_from_filename
  dsimp only
  rw [h1, h2]

theorem extract_length (fallback file_path : String) :
    6 ≤ (extract_order_number_from_filename fallback file_path).data.length := by
  cases h1 : searchKCB (pyBasename file_path).data with
  | some ds => rw [extract_of_searchKCB h1, pyZfill_length]; omega
  | none =>
    cases h2 : search3to6 (pyBasename file_path).data with
    | some ds => rw [extract_of_search3to6 h1 h2, pyZfill_length]; omega
    | none => rw [extract_of_no_match h1 h2, pyZfill_length]; omega

/-- Claim C6, counterexample: `zfill` pads but never truncates, so a
`KCB-<digits>` match with seven digits yields a seven-character result, not
six. -/
theorem c6_counterexample :
    extract_order_number_from_filename "010203" "KCB-1234567.dat" = "1234567" ∧
      ("1234567" : String).data.length ≠ 6 :=
  ⟨rfl, by decide⟩

/-- Claim C6, amended: extraction tries `KCB-<digits>` (case-insensitive),
then the first 3–6-digit run, then the time-derived fallback; the result is
zero-padded to AT LEAST 6 characters (never truncated), and equals exactly 6
characters whenever the matched digit run has at most 6 digits — in
particular `"KCB-618.dat" → "000618"`, `"Report_042.dat" → "000042"`, and a
digit-free name yields the 6-character fallback unchanged. -/
theorem c6_order_number_extraction (fallback file_path : String)
    (hfb : fallback.data.length = 6) :
    6 ≤ (extract_order_number_from_filename fallback file_path).data.length ∧
      extract_order_number_from_filename fallback "KCB-618.dat" = "000618" ∧
      extract_order_number_from_filename fallback "Report_042.dat" = "000042" ∧
      extract_order_number_from_filename fallback "noop.dat" = fallback := by
  refine ⟨extract_length fallback file_path, ?_, ?_, ?_⟩
  · rw [@extract_of_searchKCB fallback "KCB-618.dat" ['6', '1', '8'] (by decide)]
    decide
  · rw [@extract_of_search3to6 fallback "Report_042.dat" ['0', '4', '2'] (by decide) (by decide)]
    decide
  · rw [extract_of_no_match (by decide) (by decide)]
    exact pyZfill_eq_self (by omega)

theorem c6_order_number_extraction_witness :
    ("123456" : String).data.length = 6 ∧
      (6 ≤ (extract_order_number_from_filename "123456" "KCB-000618.dat").data.length ∧
        extract_order_number_from_filename "123456" "KCB-618.dat" = "000618" ∧
        extract_order_number_from_filename "123456" "Report_042.dat" = "000042" ∧
        extract_order_number_from_filename "123456" "noop.dat" = "123456") :=
  ⟨by decide, c6_order_number_extraction "123456" "KCB-000618.dat" (by decide)⟩

theorem dropWhile_space_replicate (k : Nat) :
    (List.replicate k ' ').dropWhile pyIsSpace = [] := by
  induction k with
  | zero => rfl
  | succ m ih =>
    rw [List.replicate_succ, List.dropWhile_cons]
    simp only [show pyIsSpace ' ' = true from rfl, if_true]
    exact ih

theorem stripChars_replicate_space (k : Nat) :
    stripChars (List.replicate k ' ') = [] := by
  unfold stripChars
  rw [dropWhile_space_replicate]
  rfl

theorem fieldOf_blank_of_short {line : String} (h : line.data.length ≤ 26) :
    fieldOf ((pyLjust line 210).data) 26 30 = "" := by
  have hcs : (pyLjust line 210).data
      = line.data ++ List.replicate (210 - line.data.length) ' ' := rfl
  unfold fieldOf
  rw [hcs, List.drop_append_eq_append_drop, List.drop_eq_nil_of_le (by omega),
    List.nil_append, List.drop_replicate, List.take_replicate,
    stripChars_replicate_space]

/-- Claim C9: a line shorter than 210 characters is decoded exactly as its
space-padded 210-character version (trailing fields blank), and a line short
enough that even the `numberOfBooks` columns are padding always decodes
successfully — length alone never rejects a line. -/
theorem c9_short_line_padded (line : String) (h : line.data.length < 210) :
    parse_order_record line
        = parse_order_record ⟨line.data ++ List.replicate (210 - line.data.length) ' '⟩ ∧
      (line.data.length ≤ 26 → (parse_order_record line).isSome = true) := by
  constructor
  · have hpj : pyLjust line 210
        = pyLjust ⟨line.data ++ List.replicate (210 - line.data.length) ' '⟩ 210 := by
      simp only [pyLjust, List.length_append, List.length_replicate]
      rw [show 210 - (line.data.length + (210 - line.data.length)) = 0 by omega]
      simp
    unfold parse_order_record
    rw [hpj]
  · intro hshort
    unfold parse_order_record
    dsimp only
    rw [fieldOf_blank_of_short hshort]
    simp

theorem c9_short_line_padded_witness :
    ("011" : String).data.length < 210 ∧
      (parse_order_record "011"
          = parse_order_record
              ⟨("011" : String).data ++
                List.replicate (210 - ("011" : String).data.length) ' '⟩ ∧
        (("011" : String).data.length ≤ 26 → (parse_order_record "011").isSome = true)) :=
  ⟨by decide, c9_short_line_padded "011" (by decide)⟩

/-- The single order line of the first batch file used for claim C2 (bank
`01`, record type `1`, style `01`, one book, serial `000100`). -/
def c2LineA : String := ⟨"011".data ++ List.replicate 21 ' ' ++ "010001000100".data⟩

/-- The single order line of the second batch file used for claim C2 (same
shape, serial `000200`). -/
def c2LineB : String := ⟨"011".data ++ List.replicate 21 ' ' ++ "010001000200".data⟩

/-- Claim C2: `PackingListOrchestrator.__init__` builds ONE `DATFileParser`
and `parse_file` appends to `self.orders` without ever clearing it, so the
dictionary returned for the second file contains the first file's order and
its expanded book: processing `a.dat` (one order, serial `000100`) and then
`b.dat` (one order, serial `000200`) through the same parser state returns,
for `b.dat`, two orders and the expanded serials of BOTH files. -/
theorem c2_parser_state_leaks_across_files :
    ((parse_file "123456" ((parse_file "123456" initParser "a.dat" [c2LineA]).1)
          "b.dat" [c2LineB]).2).map
        (fun r => (r.orders.length, r.expanded_orders.map (fun b => b.serial_number)))
      = .ok (2, ["000100", "000200"]) := rfl

/-! ## Lemmas: grouping and packing-list generation -/

theorem lookupGroup_addToGroup_self (g : List (String × List Book)) (k : String)
    (b : Book) :
    lookupGroup k (addToGroup g k b) = some (((lookupGroup k g).getD []) ++ [b]) := by
  induction g with
  | nil => simp [addToGroup, lookupGroup]
  | cons p rest ih =>
    obtain ⟨k', bs⟩ := p
    by_cases hk : k' = k
    · subst hk
      simp [addToGroup, lookupGroup]
    · simp [addToGroup, lookupGroup, hk, ih]

theorem lookupGroup_addToGroup_ne {k k2 : String} (g : List (String × List Book))
    (b : Book) (h : k2 ≠ k) :
    lookupGroup k (addToGroup g k2 b) = lookupGroup k g := by
  induction g with
  | nil => simp [addToGroup, lookupGroup, h]
  | cons p rest ih =>
    obtain ⟨k', bs⟩ := p
    by_cases hk : k' = k2
    · subst hk
      simp [addToGroup, lookupGroup, h]
    · by_cases hk2 : k' = k <;> simp [addToGroup, lookupGroup, hk, hk2, Ne.symm h, ih]

theorem keys_addToGroup (g : List (String × List Book)) (k : String) (b : Book) :
    (addToGroup g k b).map Prod.fst =
      if k ∈ g.map Prod.fst then g.map Prod.fst else g.map Prod.fst ++ [k] := by
  induction g with
  | nil => simp [addToGroup]
  | cons p rest ih =>
    obtain ⟨k', bs⟩ := p
    by_cases hk : k' = k
    · subst hk
      simp [addToGroup]
    · have hne : ¬(k = k') := fun h => hk h.symm
      by_cases hmem : k ∈ rest.map Prod.fst <;>
        simp [addToGroup, hk, hne, hmem, ih]

theorem mem_keys_addToGroup_self (g : List (String × List Book)) (k : String)
    (b : Book) : k ∈ (addToGroup g k b).map Prod.fst := by
  rw [keys_addToGroup]
  by_cases hmem : k ∈ g.map Prod.fst <;> simp [hmem]

theorem mem_keys_addToGroup_mono {g : List (String × List Book)} {k : String}
    (k2 : String) (b : Book) (h : k ∈ g.map Prod.fst) :
    k ∈ (addToGroup g k2 b).map Prod.fst := by
  rw [keys_addToGroup]
  by_cases hmem : k2 ∈ g.map Prod.fst <;> simp [hmem, h]

theorem nodup_keys_addToGroup {g : List (String × List Book)} (k : String) (b : Book)
    (h : (g.map Prod.fst).Nodup) : ((addToGroup g k b).map Prod.fst).Nodup := by
  rw [keys_addToGroup]
  by_cases hmem : k ∈ g.map Prod.fst
  · simp [hmem, h]
  · simp [hmem, List.nodup_append, h, hmem]

theorem lookupGroup_foldl (books : List Book) :
    ∀ g : List (String × List Book), ∀ k : String, k ≠ "" →
      (lookupGroup k (books.foldl groupStep g)).getD []
        = (lookupGroup k g).getD []
            ++ books.filter (fun b => pyStrip b.delivery_branch_code == k) := by
  induction books with
  | nil => intro g k _; simp
  | cons b rest ih =>
    intro g k hk
    rw [List.foldl_cons, List.filter_cons]
    by_cases hcode : pyStrip b.delivery_branch_code = ""
    · have hbeq : (pyStrip b.delivery_branch_code == k) = false := by
        rw [hcode]
        exact beq_eq_false_iff_ne.mpr (fun h => hk h.symm)
      rw [hbeq]
      rw [if_neg Bool.false_ne_true]
      rw [show groupStep g b = g by simp [groupStep, hcode]]
      exact ih g k hk
    · rw [show groupStep g b = addToGroup g (pyStrip b.delivery_branch_code) b by
        simp [groupStep, hcode]]
      by_cases hkk : pyStrip b.delivery_branch_code = k
      · subst hkk
        rw [show (pyStrip b.delivery_branch_code == pyStrip b.delivery_branch_code) = true
          from beq_self_eq_true _]
        rw [if_pos rfl]
        rw [ih _ _ hk, lookupGroup_addToGroup_self]
        simp [List.append_assoc]
      · have hbeq : (pyStrip b.delivery_branch_code == k) = false :=
          beq_eq_false_iff_ne.mpr hkk
        rw [hbeq]
        rw [if_neg Bool.false_ne_true]
        rw [ih _ _ hk, lookupGroup_addToGroup_ne _ _ hkk]

theorem nodup_keys_foldl (books : List Book) :
    ∀ g : List (String × List Book), (g.map Prod.fst).Nodup →
      ((books.foldl groupStep g).map Prod.fst).Nodup := by
  induction books with
  | nil => intro g h; exact h
  | cons b rest ih =>
    intro g h
    rw [List.foldl_cons]
    refine ih _ ?_
    by_cases hcode : pyStrip b.delivery_branch_code = ""
    · rw [show groupStep g b = g by simp [groupStep, hcode]]; exact h
    · rw [show groupStep g b = addToGroup g (pyStrip b.delivery_branch_code) b by
        simp [groupStep, hcode]]
      exact nodup_keys_addToGroup _ _ h

theorem keys_ne_empty_foldl (books : List Book) :
    ∀ g : List (String × List Book), (∀ k ∈ g.map Prod.fst, k ≠ "") →
      ∀ k ∈ (books.foldl groupStep g).map Prod.fst, k ≠ "" := by
  induction books with
  | nil => intro g h; exact h
  | cons b rest ih =>
    intro g h
    rw [List.foldl_cons]
    refine ih _ ?_
    by_cases hcode : pyStrip b.delivery_branch_code = ""
    · rw [show groupStep g b = g by simp [groupStep, hcode]]; exact h
    · rw [show groupStep g b = addToGroup g (pyStrip b.delivery_branch_code) b by
        simp [groupStep, hcode]]
      intro k hk
      rw [keys_addToGroup] at hk
      by_cases hmem : pyStrip b.delivery_branch_code ∈ g.map Prod.fst
      · rw [if_pos hmem] at hk
        exact h k hk
      · rw [if_neg hmem] at hk
        rcases List.mem_append.mp hk with hk | hk
        · exact h k hk
        · rw [List.mem_singleton.mp hk]
          exact hcode

theorem mem_keys_foldl_mono (books : List Book) :
    ∀ g : List (String × List Book), ∀ k ∈ g.map Prod.fst,
      k ∈ (books.foldl groupStep g).map Prod.fst := by
  induction books with
  | nil => intro g k h; exact h
  | cons b rest ih =>
    intro g k h
    rw [List.foldl_cons]
    refine ih _ k ?_
    by_cases hcode : pyStrip b.delivery_branch_code = ""
    · rw [show groupStep g b = g by simp [groupStep, hcode]]; exact h
    · rw [show groupStep g b = addToGroup g (pyStrip b.delivery_branch_code) b by
        simp [groupStep, hcode]]
      exact mem_keys_addToGroup_mono _ b h

theorem mem_keys_foldl_of_mem (books : List Book) :
    ∀ g : List (String × List Book), ∀ b ∈ books, pyStrip b.delivery_branch_code ≠ "" →
      pyStrip b.delivery_branch_code ∈ (books.foldl groupStep g).map Prod.fst := by
  induction books with
  | nil => intro g b h; cases h
  | cons b0 rest ih =>
    intro g b hb hcode
    rw [List.foldl_cons]
    rcases List.mem_cons.mp hb with rfl | hb
    · refine mem_keys_foldl_mono rest _ _ ?_
      rw [show groupStep g b = addToGroup g (pyStrip b.delivery_branch_code) b by
        simp [groupStep, hcode]]
      exact mem_keys_addToGroup_self _ _ b
    · exact ih _ b hb hcode

/-- Total number of books stored in a grouping. -/
def sumSizes (g : List (String × List Book)) : Nat :=
  (g.map (fun p => p.2.length)).sum

theorem sumSizes_addToGroup (g : List (String × List Book)) (k : String) (b : Book) :
    sumSizes (addToGroup g k b) = sumSizes g + 1 := by
  induction g with
  | nil => rfl
  | cons p rest ih =>
    obtain ⟨k', bs⟩ := p
    by_cases hk : k' = k
    · subst hk
      simp [addToGroup, sumSizes]
      omega
    · simp [addToGroup, sumSizes, hk] at ih ⊢
      omega

theorem sumSizes_foldl (books : List Book) :
    ∀ g : List (String × List Book),
      sumSizes (books.foldl groupStep g)
        = sumSizes g
            + (books.filter (fun b => !(pyStrip b.delivery_branch_code == ""))).length := by
  induction books with
  | nil => intro g; simp
  | cons b rest ih =>
    intro g
    rw [List.foldl_cons, List.filter_cons]
    by_cases hcode : pyStrip b.delivery_branch_code = ""
    · rw [show (!(pyStrip b.delivery_branch_code == "")) = false by simp [hcode]]
      rw [if_neg Bool.false_ne_true]
      rw [show groupStep g b = g by simp [groupStep, hcode]]
      exact ih g
    · rw [show (!(pyStrip b.delivery_branch_code == "")) = true by simp [hcode]]
      rw [if_pos rfl]
      rw [show groupStep g b = addToGroup g (pyStrip b.delivery_branch_code) b by
        simp [groupStep, hcode]]
      rw [ih _, sumSizes_addToGroup]
      simp only [List.length_cons]
      omega

theorem sum_lengths_over_keys (g : List (String × List Book))
    (h : (g.map Prod.fst).Nodup) :
    ((g.map Prod.fst).map (fun k => ((lookupGroup k g).getD []).length)).sum
      = sumSizes g := by
  induction g with
  | nil => rfl
  | cons p rest ih =>
    obtain ⟨k, bs⟩ := p
    simp only [List.map_cons, List.nodup_cons] at h ⊢
    rw [List.sum_cons]
    have hhead : lookupGroup k ((k, bs) :: rest) = some bs := by
      simp [lookupGroup]
    rw [hhead]
    have htail : (rest.map Prod.fst).map
        (fun k' => ((lookupGroup k' ((k, bs) :: rest)).getD []).length)
          = (rest.map Prod.fst).map (fun k' => ((lookupGroup k' rest).getD []).length) := by
      refine List.map_congr_left (fun k' hk' => ?_)
      have : k ≠ k' := fun he => h.1 (he ▸ hk')
      simp [lookupGroup, this]
    rw [htail, ih h.2]
    simp [sumSizes]

theorem generate_packing_lists_codes (books : List Book) (onum odate : String) :
    (generate_packing_lists books onum odate).map (·.delivery_branch_code)
      = ((group_books_by_delivery_branch books).map Prod.fst).insertionSort (· ≤ ·) := by
  unfold generate_packing_lists
  rw [List.map_map]
  exact List.map_congr_left (fun k _ => rfl) |>.trans (List.map_id _)

/-- Claim C8: the generator emits one packing list per distinct (non-blank)
delivery-branch code, in ascending code order; each list holds exactly the
input books carrying that code (in input order), and the PDF table renders a
permutation of them sorted descending by `book_style`. -/
theorem c8_grouping_and_ordering (books : List Book) (onum odate : String) :
    ((generate_packing_lists books onum odate).map (·.delivery_branch_code)).Sorted (· ≤ ·) ∧
      ((generate_packing_lists books onum odate).map (·.delivery_branch_code)).Nodup ∧
      (∀ b ∈ books, pyStrip b.delivery_branch_code ≠ "" →
        ∃ pl ∈ generate_packing_lists books onum odate,
          pl.delivery_branch_code = pyStrip b.delivery_branch_code) ∧
      (∀ pl ∈ generate_packing_lists books onum odate,
        pl.books = (books.filter
            (fun b => pyStrip b.delivery_branch_code == pl.delivery_branch_code)).map
            mkBookEntry ∧
          pl.total_books = pl.books.length) ∧
      (∀ pl ∈ generate_packing_lists books onum odate,
        List.Perm (create_books_table_rows pl.books) pl.books ∧
          ((create_books_table_rows pl.books).map (·.book_style)).Sorted
            (fun a b => b ≤ a)) := by
  haveI htot : IsTotal BookEntry (fun a b => b.book_style ≤ a.book_style) :=
    ⟨fun a b => le_total b.book_style a.book_style⟩
  haveI htrans : IsTrans BookEntry (fun a b => b.book_style ≤ a.book_style) :=
    ⟨fun _ _ _ hab hbc => le_trans hbc hab⟩
  have hkeysnd : ((group_books_by_delivery_branch books).map Prod.fst).Nodup :=
    nodup_keys_foldl books [] (by simp)
  have hkeysne : ∀ k ∈ (group_books_by_delivery_branch books).map Prod.fst, k ≠ "" :=
    keys_ne_empty_foldl books [] (by simp)
  have hperm : List.Perm
      (((group_books_by_delivery_branch books).map Prod.fst).insertionSort (· ≤ ·))
      ((group_books_by_delivery_branch books).map Prod.fst) :=
    List.perm_insertionSort _ _
  refine ⟨?_, ?_, ?_, ?_, ?_⟩
  · rw [generate_packing_lists_codes]
    exact List.sorted_insertionSort _ _
  · rw [generate_packing_lists_codes]
    exact hperm.nodup_iff.mpr hkeysnd
  · intro b hb hcode
    have hmem : pyStrip b.delivery_branch_code
        ∈ (group_books_by_delivery_branch books).map Prod.fst :=
      mem_keys_foldl_of_mem books [] b hb hcode
    refine ⟨_, List.mem_map_of_mem _ (hperm.mem_iff.mpr hmem), rfl⟩
  · intro pl hpl
    obtain ⟨k, hk, rfl⟩ := List.mem_map.mp hpl
    have hkmem : k ∈ (group_books_by_delivery_branch books).map Prod.fst :=
      hperm.mem_iff.mp hk
    have hkne : k ≠ "" := hkeysne k hkmem
    constructor
    · show ((lookupGroup k (group_books_by_delivery_branch books)).getD []).map
          mkBookEntry = _
      rw [show (lookupGroup k (group_books_by_delivery_branch books)).getD []
          = books.filter (fun b => pyStrip b.delivery_branch_code == k) by
        simpa using lookupGroup_foldl books [] k hkne]
    · show ((lookupGroup k (group_books_by_delivery_branch books)).getD []).length = _
      simp
  · intro pl hpl
    refine ⟨List.perm_insertionSort _ _, ?_⟩
    have hs : List.Sorted (fun a b : BookEntry => b.book_style ≤ a.book_style)
        (create_books_table_rows pl.books) := List.sorted_insertionSort _ pl.books
    exact List.Pairwise.map (fun e : BookEntry => e.book_style) (fun a b h => h) hs

/-- A book whose delivery-branch code strips to the empty string. -/
def blankBranchBook : Book :=
  order_to_dict { sampleOrder with delivery_branch_code := "  " } "000001"

/-- Claim C10: books whose stripped `deliveryBranchCode` is empty are
silently dropped: no emitted packing list contains an entry with a blank
branch code, the total over all packing lists counts exactly the books with
a non-blank code, and on an input containing such a book the total is
strictly smaller than the input length. -/
theorem c10_blank_branch_books_dropped (books : List Book) (onum odate : String) :
    (∀ pl ∈ generate_packing_lists books onum odate, ∀ e ∈ pl.books, e.branch_code ≠ "") ∧
      ((generate_packing_lists books onum odate).map (·.total_books)).sum
        = (books.filter (fun b => !(pyStrip b.delivery_branch_code == ""))).length ∧
      ∃ bs : List Book,
        ((generate_packing_lists bs onum odate).map (·.total_books)).sum < bs.length := by
  have hkeysnd : ((group_books_by_delivery_branch books).map Prod.fst).Nodup :=
    nodup_keys_foldl books [] (by simp)
  have hkeysne : ∀ k ∈ (group_books_by_delivery_branch books).map Prod.fst, k ≠ "" :=
    keys_ne_empty_foldl books [] (by simp)
  have hperm : List.Perm
      (((group_books_by_delivery_branch books).map Prod.fst).insertionSort (· ≤ ·))
      ((group_books_by_delivery_branch books).map Prod.fst) :=
    List.perm_insertionSort _ _
  refine ⟨?_, ?_, ?_⟩
  · intro pl hpl e he
    obtain ⟨k, hk, rfl⟩ := List.mem_map.mp hpl
    have hkne : k ≠ "" := hkeysne k (hperm.mem_iff.mp hk)
    have hbooks : (lookupGroup k (group_books_by_delivery_branch books)).getD []
        = books.filter (fun b => pyStrip b.delivery_branch_code == k) := by
      simpa using lookupGroup_foldl books [] k hkne
    have he' : e ∈ ((lookupGroup k (group_books_by_delivery_branch books)).getD
        []).map mkBookEntry := he
    rw [hbooks] at he'
    obtain ⟨b, hbmem, rfl⟩ := List.mem_map.mp he'
    have hpred : pyStrip b.delivery_branch_code = k := by
      simpa [beq_iff_eq] using (List.mem_filter.mp hbmem).2
    show pyStrip b.delivery_branch_code ≠ ""
    rw [hpred]
    exact hkne
  · have hmaps : (generate_packing_lists books onum odate).map (·.total_books)
        = (((group_books_by_delivery_branch books).map Prod.fst).insertionSort
            (· ≤ ·)).map
            (fun k =>
              ((lookupGroup k (group_books_by_delivery_branch books)).getD []).length) := by
      unfold generate_packing_lists
      rw [List.map_map]
      rfl
    rw [hmaps, (hperm.map _).sum_eq, sum_lengths_over_keys _ hkeysnd]
    show sumSizes (books.foldl groupStep []) = _
    rw [sumSizes_foldl books []]
    simp [sumSizes]
  · refine ⟨[blankBranchBook], ?_⟩
    rw [show generate_packing_lists [blankBranchBook] onum odate = [] from rfl]
    simp

example : pyStrip "  ab c  " = "ab c" := by decide
example : pyInt " -045 " = some (-45) := by decide
example : pyInt "" = none := by decide
example : pyInt "12a" = none := by decide
example : intStr (-45) = "-45" := by decide
example : intStr 0 = "0" := by rfl
example : intStr 100051 = "100051" := by rfl
example : pyZfill "-5" 6 = "-00005" := by decide
example : pyZfill "" 6 = "000000" := by decide
example : pyZfill "1234567" 6 = "1234567" := by decide
example : pyLjust "ab" 4 = "ab  " := by decide
example : pySlice "abcdef" 2 4 = "cd" := by decide
example : pyBasename "a/b/c.dat" = "c.dat" := by decide
example : pyRange 1 4 = [1, 2, 3] := by decide
example : pyRange 1 0 = [] := by decide
